import Mathlib

/-!
Shallow embedding of the post-processing pipeline of the voxel-renderer
repository (src/bloom.rs, src/color_correction.rs, src/wgpu_ctx.rs).

GPU resources are modelled by plain data: a texture records its id (a fresh
allocation counter stands in for the GPU resource identity), its label, its
size and its mip level count; a texture view records the texture it was
created from and its base mip level.  Command recording is modelled as a
list of `GpuCmd` values, in the order the Rust code records them into the
command encoder.  Rust label strings are represented by small inductive
label types with one constructor per string occurring in the source.
-/

namespace VoxelRenderer

/-- Labels of the three bloom mip textures, standing for the label strings
passed to `create_mip_texture` in bloom.rs. -/
inductive TexLabel where
  | downsampleTexture
  | horizontalBlurTexture
  | verticalBlurTexture
deriving DecidableEq

/-- Labels of the render passes recorded by this program, standing for the
label strings of the render pass descriptors. -/
inductive RPassLabel where
  | sceneRenderPass
  | colorCorrectionRenderPass
  | imguiRenderPass
deriving DecidableEq

/-- A GPU texture, as allocated by `wgpu::Device::create_texture`.  The `id`
field models the identity of the underlying GPU resource; it is drawn from a
device allocation counter threaded through the operations that allocate. -/
structure Texture where
  id : Nat
  label : TexLabel
  width : Nat
  height : Nat
  mip_level_count : Nat
deriving DecidableEq

instance : Inhabited Texture := ⟨⟨0, .downsampleTexture, 0, 0, 0⟩⟩

/-- Per-level width of mip level `i` of a texture (wgpu semantics: mip level
`i` of a texture of width `w` has width `max 1 (w >> i)`). -/
def Texture.levelWidth (t : Texture) (i : Nat) : Nat := max 1 (t.width >>> i)

/-- Per-level height of mip level `i` of a texture. -/
def Texture.levelHeight (t : Texture) (i : Nat) : Nat := max 1 (t.height >>> i)

/-- A single-mip-level view over a texture, as created by
`Texture::create_view` with `base_mip_level = level` and
`mip_level_count = Some(1)`. -/
structure TextureView where
  tex : Texture
  base_mip_level : Nat
deriving DecidableEq

instance : Inhabited TextureView := ⟨⟨default, 0⟩⟩

/-- `create_mip_texture` (bloom.rs): allocates one 2D texture of the given
size with `mip_count` mip levels.  `dev` is the device allocation counter;
the returned counter accounts for the fresh resource id. -/
def create_mip_texture (dev : Nat) (width height mip_count : Nat) (label : TexLabel) :
    Texture × Nat :=
  ({ id := dev, label := label, width := width, height := height,
     mip_level_count := mip_count }, dev + 1)

/-- `create_mip_views` (bloom.rs): one single-level view per mip level
`0..mip_count` of the texture. -/
def create_mip_views (texture : Texture) (mip_count : Nat) : List TextureView :=
  (List.range mip_count).map fun level => { tex := texture, base_mip_level := level }

/-- A bind group over the bloom `group1_layout`: binding 0 is the sampled
input texture view, binding 1 the write-only storage output view. -/
structure Group1BindGroup where
  input : TextureView
  output : TextureView
deriving DecidableEq

/-- Color attachment load operation (`wgpu::LoadOp`); the clear colors of
this program are exact small integers (black, `(0,0,0,1)`), modelled as
`Int`. -/
inductive LoadOp where
  | clear (r g b a : Int)
  | load
deriving DecidableEq

/-- Depth-stencil attachment of a render pass: absent, cleared to a value, or
loaded. -/
inductive DepthOps where
  | noDepth
  | clearDepth (v : Int)
  | loadDepth
deriving DecidableEq

/-- Which bloom compute pass a dispatch belongs to (with its mip level where
applicable). -/
inductive PassKind where
  | prefilter
  | downsample (level : Nat)
  | horizontalBlur (level : Nat)
  | verticalBlur (level : Nat)
  | composite
deriving DecidableEq

/-- One command recorded into the frame's command encoder, or queue-level
submission / surface presentation. -/
inductive GpuCmd where
  | renderPass (label : RPassLabel) (colorLoad : LoadOp) (depth : DepthOps)
  | dispatch (kind : PassKind) (x y z : Nat)
  | submit
  | present
deriving DecidableEq

/-- The pass kind of a dispatch command, if the command is a dispatch. -/
def GpuCmd.dispatchKind : GpuCmd → Option PassKind
  | .dispatch k _ _ _ => some k
  | _ => none

/-- The `BloomEffect` state (bloom.rs): the fields of the Rust struct that
carry data.  GPU pipeline, layout, sampler and buffer handles, which are
immutable and identity-only, are omitted. -/
structure BloomEffect where
  max_level : Nat
  downsample_texture : Texture
  downsample_views : List TextureView
  horizontal_blur_texture : Texture
  horizontal_blur_views : List TextureView
  vertical_blur_texture : Texture
  vertical_blur_views : List TextureView
  downsample_bind_groups : List Group1BindGroup
  horizontal_blur_bind_groups : List Group1BindGroup
  vertical_blur_bind_groups : List Group1BindGroup
  full_width : Nat
  full_height : Nat
  half_width : Nat
  half_height : Nat
deriving DecidableEq

/-- `BloomEffect::new` (bloom.rs lines 46–385) with the `max_level` constant
generalized to a parameter, so that the spec's hypothetical configurations
with `L ≠ 8` are expressible: half-resolution chain dimensions, three mip
textures with their per-level views, and the three bind-group vectors wiring
the chains.  Returns the new state with the advanced allocation counter. -/
def BloomEffect.newWithLevels (dev : Nat) (width height max_level : Nat) :
    BloomEffect × Nat :=
  let half_width := width / 2
  let half_height := height / 2
  let (downsample_texture, dev) :=
    create_mip_texture dev half_width half_height max_level .downsampleTexture
  let (horizontal_blur_texture, dev) :=
    create_mip_texture dev half_width half_height max_level .horizontalBlurTexture
  let (vertical_blur_texture, dev) :=
    create_mip_texture dev half_width half_height max_level .verticalBlurTexture
  let downsample_views := create_mip_views downsample_texture max_level
  let horizontal_blur_views := create_mip_views horizontal_blur_texture max_level
  let vertical_blur_views := create_mip_views vertical_blur_texture max_level
  let downsample_bind_groups := (List.range' 1 (max_level - 1)).map fun i =>
    { input := downsample_views[i - 1]!, output := downsample_views[i]! }
  let horizontal_blur_bind_groups := (List.range max_level).map fun i =>
    { input := downsample_views[i]!, output := horizontal_blur_views[i]! }
  let vertical_blur_bind_groups := (List.range max_level).map fun i =>
    { input := horizontal_blur_views[i]!, output := vertical_blur_views[i]! }
  ({ max_level := max_level
     downsample_texture := downsample_texture
     downsample_views := downsample_views
     horizontal_blur_texture := horizontal_blur_texture
     horizontal_blur_views := horizontal_blur_views
     vertical_blur_texture := vertical_blur_texture
     vertical_blur_views := vertical_blur_views
     downsample_bind_groups := downsample_bind_groups
     horizontal_blur_bind_groups := horizontal_blur_bind_groups
     vertical_blur_bind_groups := vertical_blur_bind_groups
     full_width := width
     full_height := height
     half_width := half_width
     half_height := half_height }, dev)

/-- `BloomEffect::new` (bloom.rs): `let max_level = 8;` then the construction
above. -/
def BloomEffect.new (dev : Nat) (width height : Nat) : BloomEffect × Nat :=
  BloomEffect.newWithLevels dev width height 8

/-- `BloomEffect::resize` (bloom.rs lines 386–487): keeps `max_level`,
updates the stored dimensions, recreates the three mip textures and views at
the new half resolution, and rebuilds the three bind-group vectors. -/
def BloomEffect.resize (self : BloomEffect) (dev : Nat) (width height : Nat) :
    BloomEffect × Nat :=
  let full_width := width
  let full_height := height
  let half_width := width / 2
  let half_height := height / 2
  let (downsample_texture, dev) :=
    create_mip_texture dev half_width half_height self.max_level .downsampleTexture
  let (horizontal_blur_texture, dev) :=
    create_mip_texture dev half_width half_height self.max_level .horizontalBlurTexture
  let (vertical_blur_texture, dev) :=
    create_mip_texture dev half_width half_height self.max_level .verticalBlurTexture
  let downsample_views := create_mip_views downsample_texture self.max_level
  let horizontal_blur_views := create_mip_views horizontal_blur_texture self.max_level
  let vertical_blur_views := create_mip_views vertical_blur_texture self.max_level
  let downsample_bind_groups := (List.range' 1 (self.max_level - 1)).map fun i =>
    { input := downsample_views[i - 1]!, output := downsample_views[i]! }
  let horizontal_blur_bind_groups := (List.range self.max_level).map fun i =>
    { input := downsample_views[i]!, output := horizontal_blur_views[i]! }
  let vertical_blur_bind_groups := (List.range self.max_level).map fun i =>
    { input := horizontal_blur_views[i]!, output := vertical_blur_views[i]! }
  ({ max_level := self.max_level
     downsample_texture := downsample_texture
     downsample_views := downsample_views
     horizontal_blur_texture := horizontal_blur_texture
     horizontal_blur_views := horizontal_blur_views
     vertical_blur_texture := vertical_blur_texture
     vertical_blur_views := vertical_blur_views
     downsample_bind_groups := downsample_bind_groups
     horizontal_blur_bind_groups := horizontal_blur_bind_groups
     vertical_blur_bind_groups := vertical_blur_bind_groups
     full_width := full_width
     full_height := full_height
     half_width := half_width
     half_height := half_height }, dev)

/-- Mip width used for level `i` in `BloomEffect::render` (bloom.rs lines
534 and 543: `(self.half_width >> i).max(1)`). -/
def BloomEffect.mipWidth (self : BloomEffect) (i : Nat) : Nat :=
  max (self.half_width >>> i) 1

/-- Mip height used for level `i` in `BloomEffect::render` (bloom.rs lines
535 and 544: `(self.half_height >> i).max(1)`). -/
def BloomEffect.mipHeight (self : BloomEffect) (i : Nat) : Nat :=
  max (self.half_height >>> i) 1

/-- `BloomEffect::render` (bloom.rs lines 489–572): the ordered list of
compute dispatches recorded into the encoder — one prefilter over the half
resolution, one downsample per level `1..max_level`, then per level
`0..max_level` one horizontal and one vertical blur, each with workgroup
counts `(dim + 7) / 8` over the pass's target dimensions. -/
def BloomEffect.render (self : BloomEffect) : List GpuCmd :=
  let prefilter :=
    GpuCmd.dispatch .prefilter ((self.half_width + 7) / 8) ((self.half_height + 7) / 8) 1
  let downsamples := (List.range' 1 (self.max_level - 1)).map fun i =>
    GpuCmd.dispatch (.downsample i)
      ((self.mipWidth i + 7) / 8) ((self.mipHeight i + 7) / 8) 1
  let blurs := (List.range self.max_level).flatMap fun i =>
    [GpuCmd.dispatch (.horizontalBlur i)
       ((self.mipWidth i + 7) / 8) ((self.mipHeight i + 7) / 8) 1,
     GpuCmd.dispatch (.verticalBlur i)
       ((self.mipWidth i + 7) / 8) ((self.mipHeight i + 7) / 8) 1]
  prefilter :: (downsamples ++ blurs)

/-- The eight fixed texture bindings (slots 0–7) of the composite group-2
bind group in `BloomEffect::apply` (bloom.rs lines 600–631):
`self.vertical_blur_views[0]` through `self.vertical_blur_views[7]`.
An out-of-bounds index is a Rust panic, modelled as `none`. -/
def BloomEffect.compositeInputs (self : BloomEffect) : Option (List TextureView) := do
  let v0 ← self.vertical_blur_views[0]?
  let v1 ← self.vertical_blur_views[1]?
  let v2 ← self.vertical_blur_views[2]?
  let v3 ← self.vertical_blur_views[3]?
  let v4 ← self.vertical_blur_views[4]?
  let v5 ← self.vertical_blur_views[5]?
  let v6 ← self.vertical_blur_views[6]?
  let v7 ← self.vertical_blur_views[7]?
  return [v0, v1, v2, v3, v4, v5, v6, v7]

/-- `BloomEffect::apply` (bloom.rs lines 574–651): builds the composite
group-2 bind group (reading the vertical-blur views at the eight fixed
slots) and records one composite dispatch over the full resolution.  `none`
models the Rust panic when the fixed indexing is out of bounds. -/
def BloomEffect.apply (self : BloomEffect) : Option (List TextureView × List GpuCmd) := do
  let inputs ← self.compositeInputs
  return (inputs,
    [GpuCmd.dispatch .composite
      ((self.full_width + 7) / 8) ((self.full_height + 7) / 8) 1])

/-- `ColorCorrectionEffect::apply` (color_correction.rs lines 174–192): one
render pass on the target view with `LoadOp::Clear(Color::BLACK)` and
`StoreOp::Store`, no depth attachment. -/
def ColorCorrectionEffect.applyTrace : List GpuCmd :=
  [GpuCmd.renderPass .colorCorrectionRenderPass (.clear 0 0 0 1) .noDepth]

/-- The scene render pass of `WgpuCtx::draw` (wgpu_ctx.rs lines 897–935):
clears color to opaque black and depth to 1. -/
def scenePassCmd : GpuCmd :=
  GpuCmd.renderPass .sceneRenderPass (.clear 0 0 0 1) (.clearDepth 1)

/-- The ImGui overlay pass of `WgpuCtx::draw` (wgpu_ctx.rs lines 1023–1036):
`LoadOp::Load` on the surface color attachment, no depth attachment. -/
def imguiPassCmd : GpuCmd :=
  GpuCmd.renderPass .imguiRenderPass .load .noDepth

/-- The part of the `WgpuCtx` state the frame trace depends on. -/
structure WgpuCtx where
  bloom_effect : BloomEffect

/-- `WgpuCtx::draw` (wgpu_ctx.rs lines 884–1042): the commands recorded into
the single command encoder of a frame, in recording order, followed by the
one queue submission and the surface presentation.  `none` models a panic
inside `BloomEffect::apply`. -/
def WgpuCtx.draw (ctx : WgpuCtx) : Option (List GpuCmd) := do
  let bloomApply ← ctx.bloom_effect.apply
  return scenePassCmd :: (ctx.bloom_effect.render ++ bloomApply.2
    ++ ColorCorrectionEffect.applyTrace ++ [imguiPassCmd, GpuCmd.submit, GpuCmd.present])

/-- Reachable `BloomEffect` states: produced by `BloomEffect::new` and closed
under `BloomEffect::resize` (the only operations that create or mutate the
state). -/
inductive Reachable : BloomEffect → Prop where
  | new (dev width height : Nat) : Reachable (BloomEffect.new dev width height).1
  | resize (b : BloomEffect) (dev width height : Nat) :
      Reachable b → Reachable (b.resize dev width height).1

/-- The frame-pipeline stage a command belongs to, used to state the total
ordering of `WgpuCtx::draw`: scene pass 0, bloom render dispatches 1, bloom
composite 2, color correction 3, UI overlay 4, submit 5, present 6. -/
def GpuCmd.stage : GpuCmd → Nat
  | .renderPass .sceneRenderPass _ _ => 0
  | .dispatch .composite _ _ _ => 2
  | .dispatch _ _ _ _ => 1
  | .renderPass .colorCorrectionRenderPass _ _ => 3
  | .renderPass .imguiRenderPass _ _ => 4
  | .submit => 5
  | .present => 6

/-- The pass kinds of the dispatches of a trace, in recording order. -/
def recordedKinds (t : List GpuCmd) : List PassKind :=
  t.filterMap GpuCmd.dispatchKind

/-- `a` is recorded strictly before `b` in the trace `t`: both occur among
the recorded dispatch kinds and the first occurrence of `a` precedes the
first occurrence of `b`. -/
def recordedBefore (t : List GpuCmd) (a b : PassKind) : Prop :=
  a ∈ recordedKinds t ∧ b ∈ recordedKinds t ∧
    (recordedKinds t).indexOf a < (recordedKinds t).indexOf b

/-- The dispatch that produces downsample-chain level `i`: the prefilter for
level 0, the level-`i` downsample otherwise. -/
def producerOfLevel (i : Nat) : PassKind :=
  if i = 0 then .prefilter else .downsample i

/-- Target dimensions of each compute pass of the bloom effect: the pass's
output texture dimensions as used by `BloomEffect::render` and
`BloomEffect::apply` to derive workgroup counts. -/
def BloomEffect.dispatchTarget (self : BloomEffect) : PassKind → Nat × Nat
  | .prefilter => (self.half_width, self.half_height)
  | .downsample i => (self.mipWidth i, self.mipHeight i)
  | .horizontalBlur i => (self.mipWidth i, self.mipHeight i)
  | .verticalBlur i => (self.mipWidth i, self.mipHeight i)
  | .composite => (self.full_width, self.full_height)

/-- The level-to-level wiring of a group-1 bind group, forgetting resource
identities: (chain, mip level) of the read slot and of the write slot. -/
def wiringOf (g : Group1BindGroup) : (TexLabel × Nat) × (TexLabel × Nat) :=
  ((g.input.tex.label, g.input.base_mip_level),
   (g.output.tex.label, g.output.base_mip_level))

/-- The bind-group topology of a bloom state: the wiring of the downsample,
horizontal-blur and vertical-blur bind-group vectors, resource identities
forgotten. -/
def topologyOf (b : BloomEffect) :
    List ((TexLabel × Nat) × (TexLabel × Nat)) ×
    List ((TexLabel × Nat) × (TexLabel × Nat)) ×
    List ((TexLabel × Nat) × (TexLabel × Nat)) :=
  (b.downsample_bind_groups.map wiringOf,
   b.horizontal_blur_bind_groups.map wiringOf,
   b.vertical_blur_bind_groups.map wiringOf)

/-- The bind-group topology determined by a level count `L`: downsample
level `i-1 → i` for `i` in `1..L`, downsample `i` → horizontal `i` and
horizontal `i` → vertical `i` for `i` in `0..L`. -/
def canonicalTopology (L : Nat) :
    List ((TexLabel × Nat) × (TexLabel × Nat)) ×
    List ((TexLabel × Nat) × (TexLabel × Nat)) ×
    List ((TexLabel × Nat) × (TexLabel × Nat)) :=
  ((List.range' 1 (L - 1)).map fun i =>
      ((.downsampleTexture, i - 1), (.downsampleTexture, i)),
   (List.range L).map fun i =>
      ((.downsampleTexture, i), (.horizontalBlurTexture, i)),
   (List.range L).map fun i =>
      ((.horizontalBlurTexture, i), (.verticalBlurTexture, i)))

/-- Whether a render pass discards the prior contents of its color
attachment (clear) rather than preserving them (load). -/
def passDiscardsPrior : GpuCmd → Bool
  | .renderPass _ (.clear _ _ _ _) _ => true
  | _ => false

/-- Contents of a color attachment after a render pass, as a function of the
load op: the pass's draws apply to the cleared value under clear semantics
and to the prior contents under load semantics. -/
def passColorOutput {α : Type} (colorLoad : LoadOp) (prior cleared : α)
    (drawOn : α → α) : α :=
  match colorLoad with
  | .clear _ _ _ _ => drawOn cleared
  | .load => drawOn prior

/-- The bloom state at 800×800 as built by `BloomEffect::new`. -/
def bloom800 : BloomEffect := (BloomEffect.new 0 800 800).1

/-- The bloom state after `resize(1, 1)` of `bloom800`. -/
def bloom800to1 : BloomEffect := (bloom800.resize 3 1 1).1

/-- A bloom state built exactly as `BloomEffect::new` would with `max_level`
set to 4 instead of 8, expressing the spec's hypothetical `L ≠ 8`
configurations. -/
def bloomL4 : BloomEffect := (BloomEffect.newWithLevels 0 200 200 4).1

/-! ### Helper lemmas -/

theorem create_mip_views_length (t : Texture) (L : Nat) :
    (create_mip_views t L).length = L := by
  simp [create_mip_views]

theorem create_mip_views_getElemBang (t : Texture) (L i : Nat) (h : i < L) :
    (create_mip_views t L)[i]! = ⟨t, i⟩ := by
  rw [getElem!_pos (create_mip_views t L) i (by simpa [create_mip_views_length] using h)]
  simp [create_mip_views]

theorem exists_decomp8 {α : Type} (l : List α) (h : 8 ≤ l.length) :
    ∃ v0 v1 v2 v3 v4 v5 v6 v7 rest,
      l = v0 :: v1 :: v2 :: v3 :: v4 :: v5 :: v6 :: v7 :: rest := by
  rcases l with _ | ⟨v0, l⟩; · simp at h
  rcases l with _ | ⟨v1, l⟩; · simp at h
  rcases l with _ | ⟨v2, l⟩; · simp at h
  rcases l with _ | ⟨v3, l⟩; · simp at h
  rcases l with _ | ⟨v4, l⟩; · simp at h
  rcases l with _ | ⟨v5, l⟩; · simp at h
  rcases l with _ | ⟨v6, l⟩; · simp at h
  rcases l with _ | ⟨v7, l⟩; · simp at h
  exact ⟨v0, v1, v2, v3, v4, v5, v6, v7, l, rfl⟩

theorem compositeInputs_of_views (b : BloomEffect) (v0 v1 v2 v3 v4 v5 v6 v7 : TextureView)
    (rest : List TextureView)
    (h : b.vertical_blur_views = v0 :: v1 :: v2 :: v3 :: v4 :: v5 :: v6 :: v7 :: rest) :
    b.compositeInputs = some [v0, v1, v2, v3, v4, v5, v6, v7] := by
  simp [BloomEffect.compositeInputs, h]

theorem compositeInputs_eq_take (b : BloomEffect) (h : 8 ≤ b.vertical_blur_views.length) :
    b.compositeInputs = some (b.vertical_blur_views.take 8) := by
  obtain ⟨v0, v1, v2, v3, v4, v5, v6, v7, rest, hv⟩ :=
    exists_decomp8 b.vertical_blur_views h
  rw [compositeInputs_of_views b v0 v1 v2 v3 v4 v5 v6 v7 rest hv, hv]
  rfl

/-- Structural well-formedness established by `BloomEffect::new` and
maintained by `BloomEffect::resize`: the fixed level count 8, the lengths of
the view and bind-group vectors, and the dimensions of the three chain
textures. -/
def WF (b : BloomEffect) : Prop :=
  b.max_level = 8 ∧
  b.downsample_views.length = 8 ∧
  b.horizontal_blur_views.length = 8 ∧
  b.vertical_blur_views.length = 8 ∧
  b.downsample_bind_groups.length = 7 ∧
  b.horizontal_blur_bind_groups.length = 8 ∧
  b.vertical_blur_bind_groups.length = 8 ∧
  b.downsample_texture.width = b.half_width ∧
  b.downsample_texture.height = b.half_height ∧
  b.downsample_texture.mip_level_count = 8 ∧
  b.horizontal_blur_texture.width = b.half_width ∧
  b.horizontal_blur_texture.height = b.half_height ∧
  b.horizontal_blur_texture.mip_level_count = 8 ∧
  b.vertical_blur_texture.width = b.half_width ∧
  b.vertical_blur_texture.height = b.half_height ∧
  b.vertical_blur_texture.mip_level_count = 8

theorem wf_new (dev width height : Nat) : WF (BloomEffect.new dev width height).1 := by
  simp [WF, BloomEffect.new, BloomEffect.newWithLevels, create_mip_texture,
    create_mip_views_length]

theorem wf_resize (b : BloomEffect) (hm : b.max_level = 8) (dev width height : Nat) :
    WF (b.resize dev width height).1 := by
  simp [WF, BloomEffect.resize, create_mip_texture, create_mip_views_length, hm]

theorem reachable_wf (b : BloomEffect) (h : Reachable b) : WF b := by
  induction h with
  | new dev width height => exact wf_new dev width height
  | resize b dev width height _ ih => exact wf_resize b ih.1 dev width height

theorem render_eq_of_max8 (b : BloomEffect) (h : b.max_level = 8) :
    b.render =
      GpuCmd.dispatch .prefilter ((b.half_width + 7) / 8) ((b.half_height + 7) / 8) 1 ::
      ((([1, 2, 3, 4, 5, 6, 7] : List Nat).map fun i =>
          GpuCmd.dispatch (.downsample i)
            ((b.mipWidth i + 7) / 8) ((b.mipHeight i + 7) / 8) 1) ++
       (([0, 1, 2, 3, 4, 5, 6, 7] : List Nat).flatMap fun i =>
          [GpuCmd.dispatch (.horizontalBlur i)
             ((b.mipWidth i + 7) / 8) ((b.mipHeight i + 7) / 8) 1,
           GpuCmd.dispatch (.verticalBlur i)
             ((b.mipWidth i + 7) / 8) ((b.mipHeight i + 7) / 8) 1])) := by
  simp only [BloomEffect.render, h]
  rfl

theorem render_stages_of_max8 (b : BloomEffect) (h : b.max_level = 8) :
    b.render.map GpuCmd.stage = List.replicate 24 1 := by
  rw [render_eq_of_max8 b h]; rfl

/-- The dispatch kinds recorded by `BloomEffect::render` when `max_level`
is 8, in recording order. -/
def renderKindList : List PassKind :=
  [.prefilter,
   .downsample 1, .downsample 2, .downsample 3, .downsample 4,
   .downsample 5, .downsample 6, .downsample 7,
   .horizontalBlur 0, .verticalBlur 0, .horizontalBlur 1, .verticalBlur 1,
   .horizontalBlur 2, .verticalBlur 2, .horizontalBlur 3, .verticalBlur 3,
   .horizontalBlur 4, .verticalBlur 4, .horizontalBlur 5, .verticalBlur 5,
   .horizontalBlur 6, .verticalBlur 6, .horizontalBlur 7, .verticalBlur 7]

theorem recordedKinds_render_of_max8 (b : BloomEffect) (h : b.max_level = 8) :
    recordedKinds b.render = renderKindList := by
  rw [recordedKinds, render_eq_of_max8 b h]; rfl

theorem ceilDiv_eight (a : Nat) : a ⌈/⌉ 8 = (a + 7) / 8 := by
  rw [Nat.ceilDiv_eq_add_pred_div]
  congr 1

/-! ### Claim theorems -/

/-- C2: for every call to `BloomEffect::render` and every mip level `i` in
`1..max_level`, the downsample dispatch for level `i` is recorded strictly
after the dispatch producing level `i-1` (the prefilter for `i = 1`, the
level-`(i-1)` downsample otherwise); and for every level `i` in
`0..max_level` the horizontal-blur then vertical-blur dispatches for level
`i` are both recorded strictly after the dispatch producing downsample level
`i`, with horizontal before vertical. -/
theorem bloom_render_pass_ordering (b : BloomEffect) (h : Reachable b) :
    (∀ i, i < b.max_level → 1 ≤ i →
      recordedBefore b.render (producerOfLevel (i - 1)) (.downsample i)) ∧
    (∀ i, i < b.max_level →
      recordedBefore b.render (producerOfLevel i) (.horizontalBlur i) ∧
      recordedBefore b.render (.horizontalBlur i) (.verticalBlur i)) := by
  have hm := (reachable_wf b h).1
  simp only [recordedBefore, recordedKinds_render_of_max8 b hm, hm]
  decide

theorem bloom_render_pass_ordering_witness :
    recordedBefore bloom800.render (producerOfLevel 3) (.horizontalBlur 3) :=
  ((bloom_render_pass_ordering bloom800 (Reachable.new 0 800 800)).2 3 (by decide)).1

/-- C3: for every width `W ≥ 2` and height `H ≥ 2` passed to
`BloomEffect::new` or `BloomEffect::resize`, the stored half dimensions are
`half_width = W / 2` and `half_height = H / 2` (integer division), and the
mip dimensions used for level `i` are `max 1 (half_width >>> i)` by
`max 1 (half_height >>> i)`. -/
theorem bloom_half_and_mip_dimensions (dev W H : Nat) (hW : 2 ≤ W) (hH : 2 ≤ H) :
    ((BloomEffect.new dev W H).1.half_width = W / 2 ∧
     (BloomEffect.new dev W H).1.half_height = H / 2 ∧
     ∀ i, (BloomEffect.new dev W H).1.mipWidth i = max 1 ((W / 2) >>> i) ∧
          (BloomEffect.new dev W H).1.mipHeight i = max 1 ((H / 2) >>> i)) ∧
    ∀ b : BloomEffect,
      (b.resize dev W H).1.half_width = W / 2 ∧
      (b.resize dev W H).1.half_height = H / 2 ∧
      ∀ i, (b.resize dev W H).1.mipWidth i = max 1 ((W / 2) >>> i) ∧
           (b.resize dev W H).1.mipHeight i = max 1 ((H / 2) >>> i) := by
  refine ⟨⟨rfl, rfl, fun i => ⟨?_, ?_⟩⟩, fun b => ⟨rfl, rfl, fun i => ⟨?_, ?_⟩⟩⟩ <;>
    simp [BloomEffect.mipWidth, BloomEffect.mipHeight, BloomEffect.new,
      BloomEffect.newWithLevels, BloomEffect.resize, create_mip_texture, Nat.max_comm]

theorem bloom_half_and_mip_dimensions_witness :
    (BloomEffect.new 0 800 800).1.half_width = 800 / 2 ∧
    (BloomEffect.new 0 800 800).1.mipWidth 7 = max 1 ((800 / 2) >>> 7) := by
  obtain ⟨⟨h1, h2, h3⟩, h4⟩ :=
    bloom_half_and_mip_dimensions 0 800 800 (by norm_num) (by norm_num)
  exact ⟨h1, (h3 7).1⟩

/-- C4: every workgroup dispatch recorded by `BloomEffect::render`
(prefilter, downsample, blur) and by `BloomEffect::apply` (composite over
the full resolution) has `dispatch_x = ⌈target_width / 8⌉` and
`dispatch_y = ⌈target_height / 8⌉` of that pass's target dimensions (and
`dispatch_z = 1`); in particular a mip width of 13 gives `dispatch_x = 2`. -/
theorem dispatch_counts_are_ceil_div (b : BloomEffect) :
    (∀ cmd ∈ b.render, ∀ k x y z, cmd = GpuCmd.dispatch k x y z →
        x = (b.dispatchTarget k).1 ⌈/⌉ 8 ∧ y = (b.dispatchTarget k).2 ⌈/⌉ 8 ∧ z = 1) ∧
    (∀ inputs cmds, b.apply = some (inputs, cmds) →
        ∀ cmd ∈ cmds, ∀ k x y z, cmd = GpuCmd.dispatch k x y z →
          x = (b.dispatchTarget k).1 ⌈/⌉ 8 ∧ y = (b.dispatchTarget k).2 ⌈/⌉ 8 ∧ z = 1) ∧
    (13 : Nat) ⌈/⌉ 8 = 2 := by
  refine ⟨?_, ?_, by decide⟩
  · intro cmd hc k x y z heq
    subst heq
    simp only [BloomEffect.render, List.mem_cons, List.mem_append, List.mem_map,
      List.mem_flatMap] at hc
    rcases hc with h1 | ⟨i, hi, h2⟩ | ⟨i, hi, h3⟩
    · injection h1 with hk hx hy hz
      subst hk; subst hx; subst hy; subst hz
      simp [BloomEffect.dispatchTarget, ceilDiv_eight]
    · injection h2 with hk hx hy hz
      subst hk; subst hx; subst hy; subst hz
      simp [BloomEffect.dispatchTarget, ceilDiv_eight]
    · simp only [List.mem_cons, List.not_mem_nil, or_false] at h3
      rcases h3 with h3 | h3 <;>
        (injection h3 with hk hx hy hz; subst hk; subst hx; subst hy; subst hz;
         simp [BloomEffect.dispatchTarget, ceilDiv_eight])
  · intro inputs cmds happ cmd hc k x y z heq
    subst heq
    rcases hci : b.compositeInputs with _ | v
    · simp [BloomEffect.apply, hci] at happ
    · simp only [BloomEffect.apply, hci, Option.bind_eq_bind, Option.some_bind,
        Option.pure_def, Option.some.injEq, Prod.mk.injEq] at happ
      obtain ⟨hinp, hcmds⟩ := happ
      subst hcmds
      simp only [List.mem_singleton] at hc
      injection hc with hk hx hy hz
      subst hk; subst hx; subst hy; subst hz
      simp [BloomEffect.dispatchTarget, ceilDiv_eight]

theorem dispatch_counts_are_ceil_div_witness :
    GpuCmd.dispatch .prefilter 50 50 1 ∈ bloom800.render ∧
    ((50 : Nat) = (bloom800.dispatchTarget .prefilter).1 ⌈/⌉ 8 ∧
     (50 : Nat) = (bloom800.dispatchTarget .prefilter).2 ⌈/⌉ 8 ∧ (1 : Nat) = 1) :=
  ⟨by decide,
   (dispatch_counts_are_ceil_div bloom800).1 _ (by decide) .prefilter 50 50 1 rfl⟩

/-- C1: every `WgpuCtx::draw` records all passes into one command encoder
and submits once, in exactly this total order: scene render pass (clearing
color and depth), then `BloomEffect::render` (prefilter, downsamples,
blurs), then `BloomEffect::apply` (composite), then
`ColorCorrectionEffect::apply`, then the UI overlay render pass, then
submit, then present — and the UI overlay pass uses load (not clear)
semantics on its color attachment. -/
theorem draw_pass_total_order (b : BloomEffect) (h : Reachable b) :
    ∃ t, (WgpuCtx.mk b).draw = some t ∧
      t.map GpuCmd.stage = 0 :: (List.replicate 24 1 ++ [2, 3, 4, 5, 6]) ∧
      t.head? = some (GpuCmd.renderPass .sceneRenderPass (.clear 0 0 0 1) (.clearDepth 1)) ∧
      t.filter (fun c => c.stage == 4) = [GpuCmd.renderPass .imguiRenderPass .load .noDepth] ∧
      t.count GpuCmd.submit = 1 ∧
      t.count GpuCmd.present = 1 ∧
      t.getLast? = some GpuCmd.present := by
  obtain ⟨hm, hdv, hhv, hvv, hrest⟩ := reachable_wf b h
  obtain ⟨v0, v1, v2, v3, v4, v5, v6, v7, rest, hview⟩ :=
    exists_decomp8 b.vertical_blur_views (by omega)
  have happly : b.apply = some ([v0, v1, v2, v3, v4, v5, v6, v7],
      [GpuCmd.dispatch .composite ((b.full_width + 7) / 8) ((b.full_height + 7) / 8) 1]) := by
    simp [BloomEffect.apply,
      compositeInputs_of_views b v0 v1 v2 v3 v4 v5 v6 v7 rest hview]
  refine ⟨scenePassCmd :: (b.render
      ++ [GpuCmd.dispatch .composite ((b.full_width + 7) / 8) ((b.full_height + 7) / 8) 1]
      ++ ColorCorrectionEffect.applyTrace
      ++ [imguiPassCmd, GpuCmd.submit, GpuCmd.present]),
    ?_, ?_, ?_, ?_, ?_, ?_, ?_⟩
  · simp [WgpuCtx.draw, happly]
  · rw [render_eq_of_max8 b hm]; rfl
  · rfl
  · rw [render_eq_of_max8 b hm]; rfl
  · rw [render_eq_of_max8 b hm]; rfl
  · rw [render_eq_of_max8 b hm]; rfl
  · rw [render_eq_of_max8 b hm]; rfl

theorem draw_pass_total_order_witness :
    ((WgpuCtx.mk bloom800).draw).isSome = true := by
  obtain ⟨t, ht, hrest⟩ := draw_pass_total_order bloom800 (Reachable.new 0 800 800)
  rw [ht]; rfl

/-- C5 counterexample: after `resize(1, 1)` from 800×800, zero-sized
dimensions do occur in subsequent operations, contrary to the claim: the
very first command `BloomEffect::render` records is a prefilter dispatch of
0×0×1 workgroups (since `half_width = half_height = 0` and
`(0 + 7) / 8 = 0`), and the three chain textures are allocated with width
and height 0. -/
theorem resize_to_one_zero_dim_counterexample :
    bloom800to1.half_width = 0 ∧
    bloom800to1.render.head? = some (GpuCmd.dispatch .prefilter 0 0 1) ∧
    bloom800to1.downsample_texture.width = 0 ∧
    bloom800to1.downsample_texture.height = 0 ∧
    bloom800to1.horizontal_blur_texture.width = 0 ∧
    bloom800to1.vertical_blur_texture.width = 0 := by
  decide

/-- C5 amended: calling `BloomEffect::resize(1, 1)` after construction at
800×800 hits no out-of-bounds indexing and no division by zero:
`half_width` and `half_height` become 0 and every per-level mip dimension
used by the downsample/blur loops is clamped to a minimum of 1 via
`max(1, 0 >> i) = 1`, so all downsample and blur dispatches are 1×1×1 —
but the prefilter dispatch (computed from the unclamped `half_width`) is
0×0×1 and the chain textures themselves are allocated at 0×0. -/
theorem resize_to_one_clamps_mip_dims :
    bloom800to1.half_width = 0 ∧ bloom800to1.half_height = 0 ∧
    (∀ i, bloom800to1.mipWidth i = 1 ∧ bloom800to1.mipHeight i = 1) ∧
    WF bloom800to1 ∧
    bloom800to1.compositeInputs.isSome = true ∧
    (bloom800to1.render.map fun c => match c with
      | GpuCmd.dispatch _ x y z => (x, y, z)
      | _ => (0, 0, 0)) = (0, 0, 1) :: List.replicate 23 (1, 1, 1) := by
  refine ⟨rfl, rfl, fun i => ⟨?_, ?_⟩, by unfold WF; decide, by decide, by decide⟩
  · show max ((0 : Nat) >>> i) 1 = 1
    simp
  · show max ((0 : Nat) >>> i) 1 = 1
    simp

/-- C6 counterexample: on a bloom state built exactly as `BloomEffect::new`
builds it but with `max_level = 4`, the composite bind-group construction of
`BloomEffect::apply` does not clamp its inputs to `min(L, 8) = 4`: the fixed
indexing `vertical_blur_views[4]` is out of bounds, a Rust panic (modelled
as `none`). -/
theorem composite_small_level_counterexample :
    bloomL4.vertical_blur_views.length = bloomL4.max_level ∧
    bloomL4.max_level = 4 ∧
    bloomL4.compositeInputs = none ∧
    bloomL4.apply = none := by
  decide

/-- C6 amended: the composite pass of `BloomEffect::apply` binds exactly the
first 8 vertical-blur mip levels (slots 0–7).  For every state with
`L = vertical_blur_views.length = max_level ≥ 8` — in particular the default
`L = 8`, where all 8 levels are bound — this equals `min(L, 8)` levels, the
higher levels being computed but unused; for `L < 8` the fixed indexing
panics instead of clamping. -/
theorem composite_reads_first_eight_levels (b : BloomEffect)
    (hL : b.vertical_blur_views.length = b.max_level) (h8 : 8 ≤ b.max_level) :
    b.compositeInputs = some (b.vertical_blur_views.take 8) ∧
    (b.vertical_blur_views.take 8).length = min b.max_level 8 := by
  have hlen : 8 ≤ b.vertical_blur_views.length := by omega
  refine ⟨compositeInputs_eq_take b hlen, ?_⟩
  rw [List.length_take, hL]
  omega

theorem composite_reads_first_eight_levels_witness :
    bloom800.compositeInputs = some (bloom800.vertical_blur_views.take 8) :=
  (composite_reads_first_eight_levels bloom800 (by decide) (by decide)).1

theorem topologyOf_resize (b : BloomEffect) (dev w h : Nat) :
    topologyOf (b.resize dev w h).1 = canonicalTopology b.max_level := by
  simp only [topologyOf, BloomEffect.resize, create_mip_texture, canonicalTopology,
    Prod.mk.injEq]
  refine ⟨?_, ?_, ?_⟩
  · rw [List.map_map]
    refine List.map_congr_left fun i hi => ?_
    rw [List.mem_range'] at hi
    obtain ⟨j, hj, rfl⟩ := hi
    simp only [Function.comp_apply]
    rw [create_mip_views_getElemBang _ _ _ (by omega),
      create_mip_views_getElemBang _ _ _ (by omega)]
    rfl
  · rw [List.map_map]
    refine List.map_congr_left fun i hi => ?_
    rw [List.mem_range] at hi
    simp only [Function.comp_apply]
    rw [create_mip_views_getElemBang _ _ _ (by omega),
      create_mip_views_getElemBang _ _ _ (by omega)]
    rfl
  · rw [List.map_map]
    refine List.map_congr_left fun i hi => ?_
    rw [List.mem_range] at hi
    simp only [Function.comp_apply]
    rw [create_mip_views_getElemBang _ _ _ (by omega),
      create_mip_views_getElemBang _ _ _ (by omega)]
    rfl

/-- C7: `BloomEffect::resize` is idempotent in its wiring: for any `W` and
`H`, calling `resize(W, H)` twice in a row yields the same bind-group
topology as calling it once — the same number of downsample,
horizontal-blur and vertical-blur bind groups, each wiring the same (input
chain and mip level, output chain and mip level) pair — although the
underlying GPU resource identities differ. -/
theorem resize_topology_idempotent (b : BloomEffect) (dev w h : Nat) :
    topologyOf (((b.resize dev w h).1).resize ((b.resize dev w h).2) w h).1 =
      topologyOf (b.resize dev w h).1 ∧
    (((b.resize dev w h).1).resize ((b.resize dev w h).2) w h).1.downsample_texture.id ≠
      (b.resize dev w h).1.downsample_texture.id ∧
    (((b.resize dev w h).1).resize ((b.resize dev w h).2) w h).1.horizontal_blur_texture.id ≠
      (b.resize dev w h).1.horizontal_blur_texture.id ∧
    (((b.resize dev w h).1).resize ((b.resize dev w h).2) w h).1.vertical_blur_texture.id ≠
      (b.resize dev w h).1.vertical_blur_texture.id := by
  refine ⟨?_, ?_, ?_, ?_⟩
  · rw [topologyOf_resize, topologyOf_resize]
    rfl
  · show dev + 1 + 1 + 1 ≠ dev
    omega
  · show dev + 1 + 1 + 1 + 1 ≠ dev + 1
    omega
  · show dev + 1 + 1 + 1 + 1 + 1 ≠ dev + 1 + 1
    omega

theorem resize_topology_idempotent_witness :
    topologyOf (((bloom800.resize 3 1 1).1).resize ((bloom800.resize 3 1 1).2) 1 1).1 =
      topologyOf (bloom800.resize 3 1 1).1 :=
  (resize_topology_idempotent bloom800 3 1 1).1

/-- C8: after `BloomEffect::new` and after every `BloomEffect::resize`, the
three mip chains (downsample, horizontal-blur, vertical-blur) have identical
level counts (`max_level`) and identical per-level dimensions; and every
resize recreates all three together, allocating three fresh textures in one
call — never partially. -/
theorem mip_chains_consistent (b : BloomEffect) (h : Reachable b) :
    (b.downsample_texture.width = b.half_width ∧
     b.horizontal_blur_texture.width = b.half_width ∧
     b.vertical_blur_texture.width = b.half_width) ∧
    (b.downsample_texture.height = b.half_height ∧
     b.horizontal_blur_texture.height = b.half_height ∧
     b.vertical_blur_texture.height = b.half_height) ∧
    (b.downsample_texture.mip_level_count = b.max_level ∧
     b.horizontal_blur_texture.mip_level_count = b.max_level ∧
     b.vertical_blur_texture.mip_level_count = b.max_level) ∧
    (b.downsample_views.length = b.max_level ∧
     b.horizontal_blur_views.length = b.max_level ∧
     b.vertical_blur_views.length = b.max_level) ∧
    (∀ i, b.downsample_texture.levelWidth i = b.horizontal_blur_texture.levelWidth i ∧
          b.downsample_texture.levelWidth i = b.vertical_blur_texture.levelWidth i ∧
          b.downsample_texture.levelHeight i = b.horizontal_blur_texture.levelHeight i ∧
          b.downsample_texture.levelHeight i = b.vertical_blur_texture.levelHeight i) ∧
    (∀ dev w h', (b.resize dev w h').1.downsample_texture.id = dev ∧
                 (b.resize dev w h').1.horizontal_blur_texture.id = dev + 1 ∧
                 (b.resize dev w h').1.vertical_blur_texture.id = dev + 2) := by
  obtain ⟨hm, hdv, hhv, hvv, hdb, hhb, hvb, hw1, hh1, hc1, hw2, hh2, hc2, hw3, hh3, hc3⟩ :=
    reachable_wf b h
  refine ⟨⟨hw1, hw2, hw3⟩, ⟨hh1, hh2, hh3⟩,
    ⟨by rw [hc1, hm], by rw [hc2, hm], by rw [hc3, hm]⟩,
    ⟨by rw [hdv, hm], by rw [hhv, hm], by rw [hvv, hm]⟩,
    fun i => ?_, fun dev w h' => ⟨rfl, rfl, ?_⟩⟩
  · simp [Texture.levelWidth, Texture.levelHeight, hw1, hw2, hw3, hh1, hh2, hh3]
  · show dev + 1 + 1 = dev + 2
    omega

theorem mip_chains_consistent_witness :
    bloom800.downsample_texture.width = bloom800.half_width ∧
    bloom800.horizontal_blur_texture.width = bloom800.half_width :=
  ⟨(mip_chains_consistent bloom800 (Reachable.new 0 800 800)).1.1,
   (mip_chains_consistent bloom800 (Reachable.new 0 800 800)).1.2.1⟩

/-- C9: `max_level` is fixed to 8 at construction and never modified, so in
every reachable `BloomEffect` state the fixed indexing of
`vertical_blur_views` at indices 0–7 in `BloomEffect::apply` is in bounds
(no panic), and the downsample, horizontal-blur and vertical-blur bind-group
vectors have lengths 7, 8 and 8. -/
theorem max_level_fixed_and_indexing_in_bounds (b : BloomEffect) (h : Reachable b) :
    b.max_level = 8 ∧
    (∀ dev w h', (b.resize dev w h').1.max_level = 8) ∧
    b.downsample_bind_groups.length = 7 ∧
    b.horizontal_blur_bind_groups.length = 8 ∧
    b.vertical_blur_bind_groups.length = 8 ∧
    b.vertical_blur_views.length = 8 ∧
    (∀ i, i < 8 → i < b.vertical_blur_views.length) ∧
    b.compositeInputs.isSome = true := by
  obtain ⟨hm, hdv, hhv, hvv, hdb, hhb, hvb, hrest⟩ := reachable_wf b h
  refine ⟨hm, fun dev w h' => ?_, hdb, hhb, hvb, hvv, fun i hi => by omega, ?_⟩
  · show b.max_level = 8
    exact hm
  · rw [compositeInputs_eq_take b (by omega)]
    rfl

theorem max_level_fixed_and_indexing_in_bounds_witness :
    bloom800.compositeInputs.isSome = true :=
  (max_level_fixed_and_indexing_in_bounds bloom800
    (Reachable.new 0 800 800)).2.2.2.2.2.2.2

/-- C10: `ColorCorrectionEffect::apply` records its render pass with a
clear load operation (clearing the target to black before drawing), so its
output depends only on the bound input texture and uniform values: under
clear semantics the pass output is independent of whatever was in the
target before the pass. -/
theorem color_correction_clears_target :
    ColorCorrectionEffect.applyTrace =
      [GpuCmd.renderPass .colorCorrectionRenderPass (.clear 0 0 0 1) .noDepth] ∧
    ColorCorrectionEffect.applyTrace.all passDiscardsPrior = true ∧
    ∀ (α : Type) (prior1 prior2 cleared : α) (drawOn : α → α),
      passColorOutput (LoadOp.clear 0 0 0 1) prior1 cleared drawOn =
        passColorOutput (LoadOp.clear 0 0 0 1) prior2 cleared drawOn :=
  ⟨rfl, rfl, fun α p q c d => rfl⟩

end VoxelRenderer
